import Mathlib

/-!
Verification of the multi-intent conversation orchestration core of the
aws-solutions-recommender-agent repository, as a shallow embedding in Lean.

Conventions of the embedding:
* Python UUID objects are modelled by natural numbers; the *string form*
  of a UUID is kept distinct from the UUID object itself (see PyKey),
  mirroring the fact that in Python a UUID and its str() form are never
  equal and hash differently as dict keys.
* Python datetimes are modelled by integers (seconds); only comparison
  and subtraction are used by the code under study.
* Python floats that are merely carried through (confidence scores) are
  modelled by rationals.
* Python strings that are sliced character-wise are modelled by List Char
  (Python slicing and len are by code point, as are List Char operations);
  strings that are only compared for equality stay as String.
* Raised exceptions are modelled by the Except monad: a raised exception
  propagates as Except.error unless the source has an except-block.
* An Optional parameter whose absence and emptiness coincide under Python
  truthiness is modelled by the corresponding empty value where that is
  faithful, and by Option otherwise.
-/

namespace AwsAgent

/-! ## Intent data model (src/models/intent.py) -/

/-- IntentType enum from src/models/intent.py. -/
inductive IntentType where
  | architectureRequest
  | pricingQuery
  | clarification
  | modification
deriving DecidableEq, Repr

/-- IntentStatus enum from src/models/intent.py. -/
inductive IntentStatus where
  | pending
  | processing
  | completed
  | failed
deriving DecidableEq, Repr

/-- The fixed category-to-priority mapping.  This is the priority_map of
MultiIntentClassifier._get_priority_for_intent_type and also the
expected_priority table of Intent.validate_priority; both use
.get(intent_type, 3), and the four cases cover the whole enum. -/
def priorityMap (t : IntentType) : Nat :=
  match t with
  | .architectureRequest => 1
  | .modification => 1
  | .pricingQuery => 2
  | .clarification => 3

/-- The pydantic field validator Intent.validate_priority: if the supplied
priority differs from the expected priority for the intent type, the
expected value is substituted; otherwise the supplied value is kept. -/
def validatePriority (t : IntentType) (v : Nat) : Nat :=
  let expected := priorityMap t
  if v ≠ expected then expected else v

/-- Intent model from src/models/intent.py.  The uuid4-generated intent_id
and the message_id reference are modelled as naturals; extracted_entities
(Dict[str, Any]) is modelled as a string-keyed association list, since the
core never inspects entity values. -/
structure Intent where
  intentId : Nat
  messageId : Nat
  intentType : IntentType
  priority : Nat
  confidence : Rat
  extractedEntities : List (String × String)
  status : IntentStatus
deriving DecidableEq, Repr

/-- Construction of an Intent through the pydantic model: the priority
field passes through the validate_priority field validator (intent_type is
validated before priority, in field-declaration order). -/
def mkIntent (intentId messageId : Nat) (t : IntentType) (priority : Nat)
    (confidence : Rat) (entities : List (String × String)) (status : IntentStatus) : Intent :=
  { intentId := intentId
    messageId := messageId
    intentType := t
    priority := validatePriority t priority
    confidence := confidence
    extractedEntities := entities
    status := status }

/-- Comparison used by every priority sort in the code
(intents.sort(key=lambda x: x.priority) and sorted(..., key=lambda x: x.priority)).
Python list.sort/sorted are stable, as is List.insertionSort. -/
def priorityLE (a b : Intent) : Prop := a.priority ≤ b.priority

instance : DecidableRel priorityLE := fun a b => Nat.decLe a.priority b.priority

instance : IsTotal Intent priorityLE := ⟨fun a b => Nat.le_total a.priority b.priority⟩

instance : IsTrans Intent priorityLE := ⟨fun _ _ _ h h2 => Nat.le_trans h h2⟩

/-! ## Multi-intent classifier (src/services/intent/classifier.py) -/

/-- One (intent_type, confidence, extracted_entities) tuple as returned by
the understanding call inside classify_intents.  confidence is optional
(intent_info.get("confidence", 0.8)); extracted_entities defaults to {}
and is already folded into the field here. -/
structure IntentInfo where
  intentType : IntentType
  confidence : Option Rat
  entities : List (String × String)
deriving Repr

/-- The successful path of MultiIntentClassifier.classify_intents: build
an Intent per tuple with the fixed priority for its category, confidence
defaulted to 0.8, status pending, then sort ascending by priority (stable).
The uuid4 intent ids are modelled by the positional index. -/
def classifyIntentsOk (messageId : Nat) (data : List IntentInfo) : List Intent :=
  let intents := data.enum.map (fun p =>
    mkIntent p.1 messageId p.2.intentType (priorityMap p.2.intentType)
      (p.2.confidence.getD (4/5)) p.2.entities .pending)
  List.insertionSort priorityLE intents

/-- Exception values that can escape _call_llm_for_classification /
_call_llm_for_extraction: a json.JSONDecodeError from parsing the model
output, or a provider API error.  There is no classifier-specific
exception class anywhere in the repository. -/
inductive PyError where
  | jsonDecodeError
  | apiError (msg : String)
deriving DecidableEq, Repr

/-- MultiIntentClassifier.classify_intents including the failure path:
the call to _call_llm_for_classification is not wrapped in any
try/except, so an exception raised there propagates to the caller
unchanged. -/
def classifyIntents (messageId : Nat) (llmResponse : Except PyError (List IntentInfo)) :
    Except PyError (List Intent) :=
  match llmResponse with
  | .error e => .error e
  | .ok data => .ok (classifyIntentsOk messageId data)

/-- The slice of AgentState (src/agents/state/agent_state.py) that
_classify_intents_node touches. -/
structure AgentState where
  currentMessage : String
  recognizedIntents : List Intent
deriving DecidableEq, Repr

/-- ConversationOrchestrator._classify_intents_node
(src/services/conversation/orchestrator.py): calls classify_intents and
stores the result in state.recognized_intents.  The node body has no
try/except either, so a classifier exception propagates out of the node.
The freshly generated temp message id is a parameter. -/
def classifyIntentsNode (st : AgentState) (tempMessageId : Nat)
    (llmResponse : Except PyError (List IntentInfo)) : Except PyError AgentState :=
  match classifyIntents tempMessageId llmResponse with
  | .error e => .error e
  | .ok intents => .ok { st with recognizedIntents := intents }

/-! ## Requirement model and merge (src/models/user_requirement.py,
src/services/recommendation/requirement_extractor.py,
src/services/conversation/context_updater.py) -/

/-- RequirementType enum from src/models/user_requirement.py. -/
inductive RequirementType where
  | applicationType
  | scale
  | constraint
  | preference
deriving DecidableEq, Repr

/-- UserRequirement model.  uuid ids and the extraction timestamp are
carried but never branched on by the merge, which keys on
requirement_value only; requirement_value is an exact (case-sensitive)
Python string, modelled by String with its literal equality. -/
structure UserRequirement where
  requirementId : Nat
  sessionId : Nat
  requirementType : RequirementType
  requirementValue : String
  confidence : Rat
  sourceMessageId : Option Nat
deriving DecidableEq, Repr

/-- The duplicate-avoiding merge used identically in
RequirementExtractor.extract_requirements (lines 76-85) and in
ContextUpdater.update_context (lines 62-68):
existing_values = {req.requirement_value for req in previous}; each new
requirement is appended iff its requirement_value is not in that set.
The set is computed once from the original previous list, so it is not
extended by the appends themselves. -/
def mergeRequirements (previous news : List UserRequirement) : List UserRequirement :=
  let existingValues := previous.map (fun r => r.requirementValue)
  previous ++ news.filter (fun r => !(existingValues.contains r.requirementValue))

/-- The merge tail of RequirementExtractor.extract_requirements: the newly
extracted requirements (already converted to models) are merged into
previous_requirements when that argument is truthy (a non-empty list);
when it is None or empty the new list is returned as is. -/
def extractRequirementsMerge (news : List UserRequirement)
    (previousRequirements : Option (List UserRequirement)) : List UserRequirement :=
  match previousRequirements with
  | some previous => if previous.isEmpty then news else mergeRequirements previous news
  | none => news

/-! ## Python dict keys: UUID objects vs their string form -/

/-- A Python dict key as used around intent results: either a UUID object
(as stored by IntentOrchestrator.process_intents, results[intent.intent_id])
or the str() form of a UUID (as looked up by
IntentResultAggregator.aggregate_results and
MultiIntentResponseFormatter.format_response, str(intent.intent_id)).
In Python a UUID object never equals any str, so the two constructors are
distinct even for the same underlying UUID. -/
inductive PyKey where
  | uuidKey (n : Nat)
  | strKey (n : Nat)
deriving DecidableEq, Repr

/-- Python dict lookup on an association list with last-binding-wins
semantics (a later assignment to the same key overwrites). -/
def pyDictGet {V : Type} (d : List (PyKey × V)) (k : PyKey) : Option V :=
  (d.reverse.find? (fun p => decide (p.1 = k))).map Prod.snd

/-! ## Intent processing (src/services/intent/orchestrator.py) -/

/-- A per-intent handler result dict.  Option models key presence
("recommendation" in result etc.); success models
result.get("success", False). -/
structure IntentResult where
  success : Bool
  error : Option String
  content : Option String
  recommendation : Option String
  pricing : Option String
  metadata : Option (List (String × String))
deriving DecidableEq, Repr

/-- The {"error": str(e), "success": False} dict recorded for an intent
whose handler raised. -/
def errorResult (e : String) : IntentResult :=
  { success := false
    error := some e
    content := none
    recommendation := none
    pricing := none
    metadata := none }

/-- The result dict actually recorded for an intent, as a function of its
handler outcome. -/
def outcomeResult (o : Except String IntentResult) : IntentResult :=
  match o with
  | .ok r => r
  | .error e => errorResult e

/-- The final status of an intent as a function of its handler outcome
(PROCESSING is always overwritten by COMPLETED or FAILED). -/
def outcomeStatus (o : Except String IntentResult) : IntentStatus :=
  match o with
  | .ok _ => .completed
  | .error _ => .failed

/-- The loop body of IntentOrchestrator.process_intents: invoke the
handler for one intent inside try/except; on success record the result
under the intent's UUID object and mark COMPLETED, on an exception record
{"error": str(e), "success": False} under the same key and mark FAILED;
either way the loop continues with the remaining intents. -/
def processStep (handler : Intent → Except String IntentResult)
    (acc : List (Intent × IntentStatus) × List (PyKey × IntentResult)) (intent : Intent) :
    List (Intent × IntentStatus) × List (PyKey × IntentResult) :=
  match handler intent with
  | .ok result =>
    (acc.1 ++ [(intent, IntentStatus.completed)],
     acc.2 ++ [(PyKey.uuidKey intent.intentId, result)])
  | .error e =>
    (acc.1 ++ [(intent, IntentStatus.failed)],
     acc.2 ++ [(PyKey.uuidKey intent.intentId, errorResult e)])

/-- IntentOrchestrator.process_intents: sort by priority
(IntentProcessor.sort_by_priority, a stable sort on intents by priority),
then fold processStep over the sorted list, starting from no statuses and
an empty results dict; a handler failure never aborts the loop.  Returns
the per-intent final statuses in processing order together with the
results dict. -/
def processIntents (handler : Intent → Except String IntentResult) (intents : List Intent) :
    List (Intent × IntentStatus) × List (PyKey × IntentResult) :=
  let sortedIntents := List.insertionSort priorityLE intents
  sortedIntents.foldl (processStep handler) ([], [])

/-! ## Intent result aggregation (src/services/intent/aggregator.py) -/

/-- The aggregated dict built by IntentResultAggregator.aggregate_results. -/
structure Aggregated where
  contentParts : List String
  recommendations : List String
  pricing : Option String
  diagrams : List String
  metadata : List (String × String)
  content : String
deriving DecidableEq, Repr

/-- The initial aggregated dict (content is filled at the end from the
empty content_parts). -/
def emptyAggregated : Aggregated :=
  { contentParts := []
    recommendations := []
    pricing := none
    diagrams := []
    metadata := []
    content := "" }

/-- Python dict.update on a string-keyed association list: existing keys
keep their position and take the new value; keys only in the update are
appended. -/
def strDictUpdate (d new : List (String × String)) : List (String × String) :=
  d.map (fun p =>
    match new.find? (fun q => q.1 == p.1) with
    | some q => (p.1, q.2)
    | none => p)
  ++ new.filter (fun q => !(d.any (fun p => p.1 == q.1)))

/-- One iteration of the aggregation loop of aggregate_results: look the
intent up under str(intent.intent_id); skip if absent or if
result.get("success", False) is falsy; otherwise contribute
recommendation/content/pricing according to the intent type and merge
result metadata. -/
def aggregateStep (intentResults : List (PyKey × IntentResult)) (agg : Aggregated)
    (intent : Intent) : Aggregated :=
  match pyDictGet intentResults (PyKey.strKey intent.intentId) with
  | none => agg
  | some result =>
    if !result.success then agg
    else
      let agg1 :=
        match intent.intentType with
        | .architectureRequest | .modification =>
          let agg0 :=
            match result.recommendation with
            | some rec => { agg with recommendations := agg.recommendations ++ [rec] }
            | none => agg
          match result.content with
          | some c => { agg0 with contentParts := agg0.contentParts ++ [c] }
          | none => agg0
        | .pricingQuery =>
          let agg0 :=
            match result.pricing with
            | some p => { agg with pricing := some p }
            | none => agg
          match result.content with
          | some c => { agg0 with contentParts := agg0.contentParts ++ [c] }
          | none => agg0
        | .clarification =>
          match result.content with
          | some c => { agg with contentParts := agg.contentParts ++ [c] }
          | none => agg
      match result.metadata with
      | some m => { agg1 with metadata := strDictUpdate agg1.metadata m }
      | none => agg1

/-- IntentResultAggregator.aggregate_results: walk the intents sorted by
priority (sorted(intents, key=lambda x: x.priority), stable), fold the
aggregation step, then join content_parts with a blank line into the
final content. -/
def aggregateResults (intentResults : List (PyKey × IntentResult)) (intents : List Intent) :
    Aggregated :=
  let sortedIntents := List.insertionSort priorityLE intents
  let agg := sortedIntents.foldl (aggregateStep intentResults) emptyAggregated
  { agg with content := String.intercalate "\n\n" agg.contentParts }

/-! ## Well-Architected alignment (src/services/recommendation/well_architected.py) -/

/-- The slice of the Service model read by the checker
(service.aws_service_name). -/
structure Service where
  awsServiceName : String
deriving DecidableEq, Repr

/-- WellArchitectedChecker._generate_default_alignment: join the service
names with ", " and pick the per-pillar f-string description, falling
back to a generic description for an unknown pillar key
(descriptions.get(pillar, ...)). -/
def generateDefaultAlignment (pillar : String) (services : List Service) : String :=
  let serviceNames := String.intercalate ", " (services.map (fun s => s.awsServiceName))
  let descriptions : List (String × String) :=
    [("operational_excellence", "使用" ++ serviceNames ++ "支持自动化和监控"),
     ("security", serviceNames ++ "提供内置安全功能"),
     ("reliability", serviceNames ++ "支持高可用性部署"),
     ("performance_efficiency", serviceNames ++ "提供可扩展的性能"),
     ("cost_optimization", serviceNames ++ "支持按需付费和预留实例"),
     ("sustainability", serviceNames ++ "支持资源优化和可持续性")]
  match descriptions.find? (fun q => q.1 == pillar) with
  | some q => q.2
  | none => serviceNames ++ "符合" ++ pillar ++ "最佳实践"

/-- The fixed pillars dict of check_alignment (key, Chinese name). -/
def wellArchitectedPillars : List (String × String) :=
  [("operational_excellence", "运营卓越"),
   ("security", "安全性"),
   ("reliability", "可靠性"),
   ("performance_efficiency", "性能效率"),
   ("cost_optimization", "成本优化"),
   ("sustainability", "可持续性")]

/-- WellArchitectedChecker.check_alignment, after the call to
AWSServiceValidator.validate_architecture: the alignment mapping it
returned (validation_result.get("well_architected_alignment", {}), an
arbitrary string-to-string dict, possibly empty or partial) is the
alignment parameter here.  checkAlignmentEntry is the loop body, for one
pillar p: keep the validator's value when the key is present and truthy
(a non-empty string), otherwise synthesize the default description. -/
def checkAlignmentEntry (services : List Service) (alignment : List (String × String))
    (p : String × String) : String × String :=
  match alignment.find? (fun q => q.1 == p.1) with
  | some q =>
    if q.2 ≠ "" then (p.1, q.2) else (p.1, generateDefaultAlignment p.1 services)
  | none => (p.1, generateDefaultAlignment p.1 services)

/-- WellArchitectedChecker.check_alignment: one entry per fixed pillar,
in the fixed pillar order. -/
def checkAlignment (services : List Service) (alignment : List (String × String)) :
    List (String × String) :=
  wellArchitectedPillars.map (checkAlignmentEntry services alignment)

/-! ## Conversation summary (src/services/conversation/context_retriever.py) -/

/-- The " | " separator of _summarize_conversation, as code points. -/
def summarySep : List Char := [' ', '|', ' ']

/-- The "..." ellipsis marker, as code points. -/
def summaryEllipsis : List Char := ['.', '.', '.']

/-- The summary variable of _summarize_conversation before the cap: the
first 100 characters of each of the first 5 messages, joined with " | ". -/
def joinedSummary (messages : List (List Char)) : List Char :=
  List.intercalate summarySep ((messages.take 5).map (fun m => m.take 100))

/-- ContextRetriever._summarize_conversation on the message contents
(msg.content, modelled as code-point lists; every stored message has a
content attribute, so the hasattr guard always passes): empty input gives
""; otherwise build joinedSummary, and if it exceeds 500 characters
truncate to 497 characters plus "...". -/
def summarizeConversation (messages : List (List Char)) : List Char :=
  if messages.isEmpty then []
  else
    let summary := joinedSummary messages
    if summary.length > 500 then summary.take 497 ++ summaryEllipsis else summary

/-! ## Context, conversation record and the stores
(src/models/context.py, src/models/conversation.py,
src/repositories/*.py, src/services/conversation/context_retriever.py,
src/services/conversation/context_updater.py,
src/services/conversation/session_manager.py) -/

/-- Context model (src/models/context.py); the uuid4 context_id is not
modelled since nothing branches on it. -/
structure Context where
  sessionId : Nat
  currentRecommendationId : Option Nat
  extractedRequirements : List UserRequirement
  conversationSummary : Option (List Char)
  lastIntents : Option (List Intent)
  updatedAt : Int
deriving DecidableEq, Repr

/-- Conversation model (src/models/conversation.py).  current_context is
the opaque context blob (the model_dump of a Context); timestamps are
integer seconds. -/
structure Conversation where
  sessionId : Nat
  createdAt : Int
  lastAccessedAt : Int
  expiresAt : Int
  currentContext : Option Context
deriving DecidableEq, Repr

/-- The stores as seen for one fixed session id: the conversation record
(ConversationRepository.get_by_session_id), the requirement store rows
(UserRequirementRepository.get_by_session_id), the message store contents
(MessageRepository.get_by_session_id) and the current clock
(datetime.utcnow()). -/
structure DB where
  sessionId : Nat
  conversation : Option Conversation
  requirements : List UserRequirement
  messages : List (List Char)
  now : Int
deriving DecidableEq, Repr

/-- ContextRetriever.retrieve_context: absent conversation gives None;
otherwise the Context is rebuilt with extracted_requirements read from
the Requirement Store, current_recommendation_id read from the
conversation's context blob (only that key is read from the blob), the
summary computed from the first 50 stored messages, and updated_at set
from the conversation's last_accessed_at. -/
def retrieveContext (db : DB) : Option Context :=
  match db.conversation with
  | none => none
  | some conv =>
    let messages := db.messages.take 50
    let currentRecommendationId :=
      match conv.currentContext with
      | some blob => blob.currentRecommendationId
      | none => none
    some
      { sessionId := db.sessionId
        currentRecommendationId := currentRecommendationId
        extractedRequirements := db.requirements
        conversationSummary := some (summarizeConversation messages)
        lastIntents := none
        updatedAt := conv.lastAccessedAt }

/-- ContextUpdater.update_context.  new_requirements is passed as a plain
list because Python treats None and [] identically here (both falsy in
the merge branch; new_requirements or [] in the fresh branch).  The
other optional arguments keep their Option form, with Python truthiness
(a provided empty intent list or empty summary string is falsy and does
not overwrite).  The merged context is written back only into the
conversation record's current_context blob (when the conversation
exists); the requirement and message stores are untouched. -/
def updateContext (db : DB) (newRequirements : List UserRequirement)
    (newIntents : Option (List Intent)) (currentRecommendation : Option Nat)
    (conversationSummary : Option (List Char)) : Context × DB :=
  let context : Context :=
    match retrieveContext db with
    | none =>
      { sessionId := db.sessionId
        currentRecommendationId := currentRecommendation
        extractedRequirements := newRequirements
        conversationSummary := conversationSummary
        lastIntents := newIntents
        updatedAt := db.now }
    | some existing =>
      let c1 :=
        if newRequirements.isEmpty then existing
        else { existing with
                extractedRequirements :=
                  mergeRequirements existing.extractedRequirements newRequirements }
      let c2 :=
        match newIntents with
        | some ints => if ints.isEmpty then c1 else { c1 with lastIntents := some ints }
        | none => c1
      let c3 :=
        match currentRecommendation with
        | some rid => { c2 with currentRecommendationId := some rid }
        | none => c2
      let c4 :=
        match conversationSummary with
        | some s => if s.isEmpty then c3 else { c3 with conversationSummary := some s }
        | none => c3
      { c4 with updatedAt := db.now }
  let db1 :=
    match db.conversation with
    | some conv => { db with conversation := some { conv with currentContext := some context } }
    | none => db
  (context, db1)

/-! ## Session validation (src/services/conversation/session_manager.py) -/

/-- SessionManager.validate_session: the conversation looked up for the
session id must exist, and it is rejected exactly when
conversation.expires_at < datetime.utcnow(). -/
def validateSession (conversation : Option Conversation) (now : Int) : Bool :=
  match conversation with
  | none => false
  | some conv => if conv.expiresAt < now then false else true

/-! ## Concrete instances and derived closed forms used in the
theorems and witnesses below -/

/-- A conversation record sitting exactly at its expiry instant. -/
def expiryBoundaryConversation : Conversation :=
  { sessionId := 1
    createdAt := 0
    lastAccessedAt := 0
    expiresAt := 100
    currentContext := none }

/-- A concrete agent state for the classification-failure counterexample. -/
def exampleAgentState : AgentState :=
  { currentMessage := "这个多少钱？", recognizedIntents := [] }

/-- A successful handler result for the partial-failure example. -/
def exampleOkResult : IntentResult :=
  { success := true
    error := none
    content := some "架构已生成"
    recommendation := some "rec-1"
    pricing := none
    metadata := none }

/-- A handler that raises exactly on the intent with id 2. -/
def exampleHandler (intent : Intent) : Except String IntentResult :=
  if intent.intentId = 2 then .error "boom" else .ok exampleOkResult

/-- A two-intent turn: one architecture request, one pricing query. -/
def exampleIntents : List Intent :=
  [mkIntent 1 10 .architectureRequest 1 (9/10) [] .pending,
   mkIntent 2 10 .pricingQuery 2 (4/5) [] .pending]

/-- A string-keyed results dict with one successful and one failed entry. -/
def exampleSuccessDict : List (PyKey × IntentResult) :=
  [(PyKey.strKey 1, exampleOkResult), (PyKey.strKey 2, errorResult "boom")]

/-- The Context value that update_context computes when only new
requirements are supplied and the conversation record exists (derived
closed form, used in the proofs below). -/
def updatedContextValue (db : DB) (conv : Conversation)
    (newRequirements : List UserRequirement) : Context :=
  { sessionId := db.sessionId
    currentRecommendationId :=
      match conv.currentContext with
      | some blob => blob.currentRecommendationId
      | none => none
    extractedRequirements :=
      if newRequirements.isEmpty then db.requirements
      else mergeRequirements db.requirements newRequirements
    conversationSummary := some (summarizeConversation (db.messages.take 50))
    lastIntents := none
    updatedAt := db.now }

/-- Five 100-character messages: the join overflows the 500-character
cap (512 characters). -/
def longMessages : List (List Char) := List.replicate 5 (List.replicate 100 'a')

/-- A requirement already sitting in the Requirement Store. -/
def exampleStoredRequirement : UserRequirement :=
  { requirementId := 1
    sessionId := 5
    requirementType := .scale
    requirementValue := "1000用户"
    confidence := 17/20
    sourceMessageId := none }

/-- A freshly extracted requirement with a novel value. -/
def exampleNewRequirement : UserRequirement :=
  { requirementId := 2
    sessionId := 5
    requirementType := .applicationType
    requirementValue := "web应用"
    confidence := 9/10
    sourceMessageId := none }

/-- A store state with an existing conversation record. -/
def exampleDB : DB :=
  { sessionId := 5
    conversation := some
      { sessionId := 5
        createdAt := 0
        lastAccessedAt := 50
        expiresAt := 2592000
        currentContext := none }
    requirements := [exampleStoredRequirement]
    messages := []
    now := 60 }


/-! ## Theorems -/

/-- validate_priority always lands on the fixed mapping, whatever value
was supplied. -/
theorem validatePriority_eq_priorityMap (t : IntentType) (v : Nat) :
    validatePriority t v = priorityMap t := by
  by_cases h : v = priorityMap t <;> simp [validatePriority, h]

/--
C1.  For every list of (category, confidence, entities) tuples returned
by the understanding call, the intent list returned by
MultiIntentClassifier.classify_intents is sorted ascending by numeric
priority; every intent in it has priority exactly equal to its
category's fixed mapping; any Intent model constructed with an
externally supplied priority value gets that value replaced by the fixed
mapping; and the fixed mapping is 1 for architecture_request and
modification, 2 for pricing_query, 3 for clarification.
-/
theorem classify_intents_sorted_and_fixed_priority
    (messageId : Nat) (data : List IntentInfo)
    (intentId mid : Nat) (t : IntentType) (suppliedPriority : Nat) (conf : Rat)
    (entities : List (String × String)) (status : IntentStatus) :
    List.Sorted priorityLE (classifyIntentsOk messageId data) ∧
    ((classifyIntentsOk messageId data).all
      (fun i => i.priority == priorityMap i.intentType)) = true ∧
    (mkIntent intentId mid t suppliedPriority conf entities status).priority = priorityMap t ∧
    (priorityMap .architectureRequest = 1 ∧ priorityMap .modification = 1 ∧
     priorityMap .pricingQuery = 2 ∧ priorityMap .clarification = 3) := by
  refine ⟨List.sorted_insertionSort priorityLE _, ?_, ?_, by decide⟩
  · rw [List.all_eq_true]
    intro i hi
    unfold classifyIntentsOk at hi
    rw [List.mem_insertionSort, List.mem_map] at hi
    obtain ⟨p, _, rfl⟩ := hi
    simp [mkIntent, validatePriority_eq_priorityMap]
  · simp [mkIntent, validatePriority_eq_priorityMap]

/--
C2.  Both merge sites (RequirementExtractor.extract_requirements and
ContextUpdater.update_context) key duplicates on requirement_value only:
merging a single new requirement whose value already occurs
(case-sensitively) in the prior set leaves the prior set unchanged, and
merging one with a novel value appends exactly that requirement, raising
the cardinality by exactly one.  The first conjunct ties the
extract_requirements tail to mergeRequirements, which is also the merge
performed by update_context.
-/
theorem merge_single_requirement_value_keyed
    (previous news : List UserRequirement) (r : UserRequirement) :
    extractRequirementsMerge news (some previous) = mergeRequirements previous news ∧
    mergeRequirements previous [r] =
      (if (previous.map (fun p => p.requirementValue)).contains r.requirementValue
       then previous else previous ++ [r]) ∧
    (mergeRequirements previous [r]).length =
      (if (previous.map (fun p => p.requirementValue)).contains r.requirementValue
       then previous.length else previous.length + 1) := by
  have hsingle : mergeRequirements previous [r] =
      (if (previous.map (fun p => p.requirementValue)).contains r.requirementValue
       then previous else previous ++ [r]) := by
    unfold mergeRequirements
    simp only [List.filter_cons, List.filter_nil]
    cases h : (previous.map (fun p => p.requirementValue)).contains r.requirementValue <;>
      simp
  refine ⟨?_, hsingle, ?_⟩
  · cases previous with
    | nil => simp [extractRequirementsMerge, mergeRequirements]
    | cons a l => rfl
  · rw [hsingle]
    cases h : (previous.map (fun p => p.requirementValue)).contains r.requirementValue <;>
      simp [h]

/--
C4 counterexample.  The claim says a stored session is valid exactly when
the current time is strictly before its expiry, so a session whose
expiry equals the current time should be rejected.  In the code
(SessionManager.validate_session) the rejection test is
expires_at < now, so at now = expires_at = 100 the session validates as
true even though the current time is not strictly before the expiry.
-/
theorem validate_session_boundary_counterexample :
    validateSession (some expiryBoundaryConversation) 100 = true ∧
    ¬ ((100 : Int) < expiryBoundaryConversation.expiresAt) := by
  constructor
  · decide
  · decide

/--
C4 amended.  SessionManager.validate_session returns true exactly when
the session exists and the current time is less than or equal to its
expiry: a session whose expiry equals the current time is still treated
as valid, a session at expiry minus one second is valid, and a session
at expiry plus one second is invalid.
-/
theorem validate_session_iff_not_past_expiry
    (conversation : Option Conversation) (now : Int) :
    (validateSession conversation now = true ↔
      ∃ c, conversation = some c ∧ now ≤ c.expiresAt) ∧
    (∀ c : Conversation, validateSession (some c) c.expiresAt = true ∧
      validateSession (some c) (c.expiresAt - 1) = true ∧
      validateSession (some c) (c.expiresAt + 1) = false) := by
  constructor
  · cases conversation with
    | none => simp [validateSession]
    | some c =>
      show (if c.expiresAt < now then false else true) = true ↔ _
      constructor
      · intro h
        refine ⟨c, rfl, ?_⟩
        by_contra hlt
        rw [if_pos (by omega)] at h
        exact Bool.false_ne_true h
      · rintro ⟨c2, hc2, hle⟩
        cases hc2
        rw [if_neg (by omega)]
  · intro c
    refine ⟨?_, ?_, ?_⟩
    · show (if c.expiresAt < c.expiresAt then false else true) = true
      rw [if_neg (by omega)]
    · show (if c.expiresAt < c.expiresAt - 1 then false else true) = true
      rw [if_neg (by omega)]
    · show (if c.expiresAt < c.expiresAt + 1 then false else true) = false
      rw [if_pos (by omega)]

/--
C5 counterexample.  The claim says a failed or unparseable understanding
call is signalled as an IntentClassificationError and that the
orchestrator then treats the turn as having zero recognized intents,
continuing the pipeline.  In the code no such exception type exists and
nothing is caught: a json.JSONDecodeError raised inside
_call_llm_for_classification propagates unchanged through
classify_intents and _classify_intents_node, so at this concrete input
the node aborts with the raw error instead of returning the zero-intent
state the claim requires.
-/
theorem classify_failure_not_recovered_counterexample :
    classifyIntentsNode exampleAgentState 7 (.error .jsonDecodeError) =
      .error .jsonDecodeError ∧
    classifyIntentsNode exampleAgentState 7 (.error .jsonDecodeError) ≠
      .ok { exampleAgentState with recognizedIntents := [] } := by
  constructor
  · rfl
  · intro h
    exact Except.noConfusion h

/--
C5 amended.  When the understanding call for intent classification fails
or returns unparseable output, the raw error (there is no
IntentClassificationError type in the repository) propagates unchanged
out of MultiIntentClassifier.classify_intents and out of the
orchestrator's _classify_intents_node, aborting the turn's classification
stage rather than degrading it to zero recognized intents.
-/
theorem classify_failure_propagates (st : AgentState) (mid : Nat) (e : PyError) :
    classifyIntents mid (.error e) = .error e ∧
    classifyIntentsNode st mid (.error e) = .error e :=
  ⟨rfl, rfl⟩

/-- Folding processStep appends one status and one results-dict entry per
intent, each determined by that intent's own handler outcome only. -/
theorem foldl_processStep (handler : Intent → Except String IntentResult) :
    ∀ (l : List Intent) (acc : List (Intent × IntentStatus) × List (PyKey × IntentResult)),
      l.foldl (processStep handler) acc =
        (acc.1 ++ l.map (fun i => (i, outcomeStatus (handler i))),
         acc.2 ++ l.map (fun i => (PyKey.uuidKey i.intentId, outcomeResult (handler i))))
  | [], acc => by simp
  | x :: l, acc => by
    rw [List.foldl_cons, foldl_processStep handler l]
    cases hx : handler x with
    | ok r => simp [processStep, hx, outcomeStatus, outcomeResult]
    | error e => simp [processStep, hx, outcomeStatus, outcomeResult]

/-- Characterization of process_intents: every intent of the (stable,
priority-sorted) list gets a final status and a results-dict entry
computed from its own handler outcome; no outcome removes or blocks the
entries of the other intents. -/
theorem processIntents_eq (handler : Intent → Except String IntentResult)
    (intents : List Intent) :
    processIntents handler intents =
      ((List.insertionSort priorityLE intents).map (fun i => (i, outcomeStatus (handler i))),
       (List.insertionSort priorityLE intents).map
         (fun i => (PyKey.uuidKey i.intentId, outcomeResult (handler i)))) := by
  unfold processIntents
  rw [foldl_processStep]
  simp

/-- find? by key misses on a list whose keys avoid that key. -/
theorem find?_eq_none_of_key_not_mem {V : Type} (k : PyKey) (l : List (PyKey × V))
    (h : k ∉ l.map Prod.fst) : l.find? (fun p => decide (p.1 = k)) = none := by
  rw [List.find?_eq_none]
  intro p hp
  simp only [decide_eq_true_eq]
  intro hk
  exact h (List.mem_map.mpr ⟨p, hp, hk⟩)

/-- find? by key on a filtered list still misses when the keys avoid the
key. -/
theorem find?_filter_eq_none_of_key_not_mem {V : Type} (k : PyKey)
    (l : List (PyKey × V)) (q : PyKey × V → Bool) (h : k ∉ l.map Prod.fst) :
    (l.filter q).find? (fun p => decide (p.1 = k)) = none := by
  apply find?_eq_none_of_key_not_mem
  intro hk
  apply h
  obtain ⟨p, hp, hfst⟩ := List.mem_map.mp hk
  exact List.mem_map.mpr ⟨p, (List.mem_filter.mp hp).1, hfst⟩

/-- On an association list with pairwise distinct keys, looking a key up
after filtering on the values is the same as looking it up first and
filtering the found value. -/
theorem find?_filter_nodup {V : Type} (pred : V → Bool) (k : PyKey) :
    ∀ (l : List (PyKey × V)), (l.map Prod.fst).Nodup →
      (l.filter (fun p => pred p.2)).find? (fun p => decide (p.1 = k)) =
        (l.find? (fun p => decide (p.1 = k))).bind
          (fun p => if pred p.2 then some p else none)
  | [], _ => rfl
  | a :: l, h => by
    rw [List.map_cons, List.nodup_cons] at h
    rw [List.filter_cons]
    by_cases hk : a.1 = k
    · rw [List.find?_cons_of_pos _ (by simp [hk]), Option.some_bind]
      cases hpa : pred a.2
      · rw [if_neg (by simp [hpa]), if_neg (by simp [hpa])]
        subst hk
        exact find?_filter_eq_none_of_key_not_mem a.1 l (fun p => pred p.2) h.1
      · rw [if_pos (by simp [hpa]), if_pos (by simp [hpa]),
          List.find?_cons_of_pos _ (by simp [hk])]
    · rw [List.find?_cons_of_neg _ (by simp [hk])]
      cases hpa : pred a.2
      · rw [if_neg (by simp [hpa])]
        exact find?_filter_nodup pred k l h.2
      · rw [if_pos (by simp [hpa]), List.find?_cons_of_neg _ (by simp [hk])]
        exact find?_filter_nodup pred k l h.2

/-- Python dict lookup commutes with dropping the unsuccessful entries,
for a dict with distinct keys. -/
theorem pyDictGet_filter_success (d : List (PyKey × IntentResult))
    (hd : (d.map Prod.fst).Nodup) (k : PyKey) :
    pyDictGet (d.filter (fun p => p.2.success)) k =
      (pyDictGet d k).bind (fun r => if r.success then some r else none) := by
  unfold pyDictGet
  rw [← List.filter_reverse]
  rw [find?_filter_nodup (fun r => r.success) k d.reverse
    (by rw [List.map_reverse, List.nodup_reverse]; exact hd)]
  cases hf : d.reverse.find? (fun p => decide (p.1 = k)) with
  | none => rfl
  | some p => cases hp : p.2.success <;> simp [hp]

/-- Dropping the unsuccessful entries from the results dict does not
change one aggregation step: unsuccessful results are skipped anyway. -/
theorem aggregateStep_filter_success (d : List (PyKey × IntentResult))
    (hd : (d.map Prod.fst).Nodup) (agg : Aggregated) (intent : Intent) :
    aggregateStep (d.filter (fun p => p.2.success)) agg intent =
      aggregateStep d agg intent := by
  unfold aggregateStep
  rw [pyDictGet_filter_success d hd]
  cases hres : pyDictGet d (PyKey.strKey intent.intentId) with
  | none => rfl
  | some r =>
    cases hr : r.success
    · simp [hr]
    · simp [hr]

/--
C3.  Handler failures are isolated in IntentOrchestrator.process_intents:
the per-intent status is failed and the recorded entry is the
{error, success: false} dict exactly for the intents whose handler
raised, every other intent in the list is still processed and keeps its
own outcome (no abort), and IntentResultAggregator.aggregate_results
computes the same aggregate whether or not the non-successful entries
are removed from the results dict, i.e. only entries with a true success
flag contribute to the aggregated content/recommendations/pricing.
-/
theorem process_intents_failure_isolated
    (handler : Intent → Except String IntentResult) (intents : List Intent)
    (d : List (PyKey × IntentResult)) (hd : (d.map Prod.fst).Nodup) :
    processIntents handler intents =
      ((List.insertionSort priorityLE intents).map (fun i => (i, outcomeStatus (handler i))),
       (List.insertionSort priorityLE intents).map
         (fun i => (PyKey.uuidKey i.intentId, outcomeResult (handler i)))) ∧
    (∀ e : String, outcomeStatus (.error e) = .failed ∧
      outcomeResult (.error e) = errorResult e) ∧
    aggregateResults d intents = aggregateResults (d.filter (fun p => p.2.success)) intents := by
  refine ⟨processIntents_eq handler intents, fun e => ⟨rfl, rfl⟩, ?_⟩
  have hstep : aggregateStep (d.filter (fun p => p.2.success)) = aggregateStep d := by
    funext agg intent
    exact aggregateStep_filter_success d hd agg intent
  unfold aggregateResults
  rw [hstep]

/-- Witness for C3 at a concrete two-intent turn whose second handler
raises. -/
theorem process_intents_failure_isolated_witness :
    (exampleSuccessDict.map Prod.fst).Nodup ∧
    (processIntents exampleHandler exampleIntents =
      ((List.insertionSort priorityLE exampleIntents).map
        (fun i => (i, outcomeStatus (exampleHandler i))),
       (List.insertionSort priorityLE exampleIntents).map
         (fun i => (PyKey.uuidKey i.intentId, outcomeResult (exampleHandler i)))) ∧
     (outcomeStatus (.error "boom") = .failed ∧
      outcomeResult (.error "boom") = errorResult "boom") ∧
     aggregateResults exampleSuccessDict exampleIntents =
       aggregateResults (exampleSuccessDict.filter (fun p => p.2.success)) exampleIntents) := by
  have h := process_intents_failure_isolated exampleHandler exampleIntents
    exampleSuccessDict (by decide)
  exact ⟨by decide, h.1, h.2.1 "boom", h.2.2⟩

/-- Every key stored by process_intents is a UUID object, so a lookup
under any string key misses. -/
theorem pyDictGet_processIntents_strKey_none
    (handler : Intent → Except String IntentResult) (intents : List Intent) (k : Nat) :
    pyDictGet (processIntents handler intents).2 (PyKey.strKey k) = none := by
  unfold pyDictGet
  rw [find?_eq_none_of_key_not_mem]
  · rfl
  · intro hk
    rw [processIntents_eq] at hk
    rw [List.map_reverse, List.mem_reverse, List.map_map] at hk
    obtain ⟨i, _, hfst⟩ := List.mem_map.mp hk
    exact PyKey.noConfusion hfst

/-- An aggregation step with a missing lookup leaves the aggregate
untouched. -/
theorem aggregateStep_of_get_none (d : List (PyKey × IntentResult)) (agg : Aggregated)
    (intent : Intent) (h : pyDictGet d (PyKey.strKey intent.intentId) = none) :
    aggregateStep d agg intent = agg := by
  unfold aggregateStep
  rw [h]

/-- Folding aggregation steps over any intent list is the identity when
every string-key lookup misses. -/
theorem foldl_aggregateStep_const (d : List (PyKey × IntentResult))
    (h : ∀ k : Nat, pyDictGet d (PyKey.strKey k) = none) :
    ∀ (l : List Intent) (agg : Aggregated), l.foldl (aggregateStep d) agg = agg
  | [], _ => rfl
  | x :: l, agg => by
    rw [List.foldl_cons, aggregateStep_of_get_none d agg x (h x.intentId),
      foldl_aggregateStep_const d h l]

/--
C9.  process_intents keys its result mapping by the intents' UUID
objects while aggregate_results (and the response formatter) look each
intent up under the string form of its id; a string-form key never
equals a UUID-object key, so aggregating the mapping exactly as returned
by process_intents matches no intent and yields empty content_parts,
recommendations, pricing and metadata for every input.
-/
theorem aggregate_of_process_intents_is_empty
    (handler : Intent → Except String IntentResult) (intents : List Intent) :
    (∀ k : Nat, pyDictGet (processIntents handler intents).2 (PyKey.strKey k) = none) ∧
    aggregateResults (processIntents handler intents).2 intents = emptyAggregated := by
  refine ⟨pyDictGet_processIntents_strKey_none handler intents, ?_⟩
  simp only [aggregateResults]
  rw [foldl_aggregateStep_const _ (pyDictGet_processIntents_strKey_none handler intents)]
  rfl

/-- Each check_alignment entry keeps its pillar's key. -/
theorem checkAlignmentEntry_fst (services : List Service)
    (alignment : List (String × String)) (p : String × String) :
    (checkAlignmentEntry services alignment p).1 = p.1 := by
  unfold checkAlignmentEntry
  cases alignment.find? (fun q => q.1 == p.1) with
  | none => rfl
  | some q =>
    show (if q.2 ≠ "" then (p.1, q.2)
      else (p.1, generateDefaultAlignment p.1 services)).1 = p.1
    split <;> rfl

/--
C6.  For every service list and every alignment mapping returned by the
validation call (empty or partial included), check_alignment returns a
map whose key set is exactly the six fixed pillars, in the fixed order,
never more and never fewer; each value is either the input mapping's
non-empty value for that pillar or the locally synthesized default
description for a pillar that the input left missing or empty.
-/
theorem check_alignment_exactly_six_pillars (services : List Service)
    (alignment : List (String × String)) :
    (checkAlignment services alignment).map Prod.fst =
      ["operational_excellence", "security", "reliability",
       "performance_efficiency", "cost_optimization", "sustainability"] ∧
    ((checkAlignment services alignment).all (fun p =>
      ((((alignment.find? (fun q => q.1 == p.1)).map Prod.snd) == some p.2) && (p.2 != ""))
      || (p.2 == generateDefaultAlignment p.1 services))) = true := by
  constructor
  · have h1 : (checkAlignment services alignment).map Prod.fst =
        wellArchitectedPillars.map Prod.fst := by
      unfold checkAlignment
      rw [List.map_map]
      exact List.map_congr_left
        (fun p _ => checkAlignmentEntry_fst services alignment p)
    rw [h1]
    rfl
  · rw [List.all_eq_true]
    intro x hx
    unfold checkAlignment at hx
    obtain ⟨p, hp, rfl⟩ := List.mem_map.mp hx
    cases hfind : alignment.find? (fun q => q.1 == p.1) with
    | none =>
      have hentry : checkAlignmentEntry services alignment p =
          (p.1, generateDefaultAlignment p.1 services) := by
        unfold checkAlignmentEntry
        simp only [hfind]
      rw [hentry]
      simp
    | some q =>
      by_cases hq : q.2 ≠ ""
      · have hentry : checkAlignmentEntry services alignment p = (p.1, q.2) := by
          unfold checkAlignmentEntry
          simp only [hfind]
          rw [if_pos hq]
        rw [hentry]
        simp [hfind, hq]
      · have hentry : checkAlignmentEntry services alignment p =
            (p.1, generateDefaultAlignment p.1 services) := by
          unfold checkAlignmentEntry
          simp only [hfind]
          rw [if_neg hq]
        rw [hentry]
        simp

/-- Computed form of update_context (new requirements only, existing
conversation): the merged context is returned and written into the
conversation's context blob; nothing else in the stores changes. -/
theorem updateContext_requirementsOnly (db : DB) (conv : Conversation)
    (hconv : db.conversation = some conv) (newRequirements : List UserRequirement) :
    updateContext db newRequirements none none none =
      (updatedContextValue db conv newRequirements,
       { db with conversation := some ({ conv with
           currentContext := some (updatedContextValue db conv newRequirements) }) }) := by
  unfold updateContext retrieveContext updatedContextValue
  rw [hconv]
  by_cases h : newRequirements.isEmpty <;> simp [h]

/--
C7.  The requirement merge of ContextUpdater.update_context is
idempotent: for every state of the stores and every fixed
new-requirement input, running update_context twice with that identical
input leaves the same final requirement set in the resulting context as
running it once, because the value-based dedup rule (together with the
fact that the merged requirements are only written to the conversation's
context blob) reproduces the same merge on the second run.
-/
theorem update_context_idempotent (db : DB) (newRequirements : List UserRequirement) :
    (updateContext (updateContext db newRequirements none none none).2
        newRequirements none none none).1.extractedRequirements =
      (updateContext db newRequirements none none none).1.extractedRequirements := by
  cases hconv : db.conversation with
  | none =>
    have h1 : updateContext db newRequirements none none none =
        ({ sessionId := db.sessionId
           currentRecommendationId := none
           extractedRequirements := newRequirements
           conversationSummary := none
           lastIntents := none
           updatedAt := db.now }, db) := by
      unfold updateContext retrieveContext
      rw [hconv]
    simp [h1]
  | some conv =>
    have h1 := updateContext_requirementsOnly db conv hconv newRequirements
    have h2 := updateContext_requirementsOnly
      { db with conversation := some ({ conv with
          currentContext := some (updatedContextValue db conv newRequirements) }) }
      { conv with currentContext := some (updatedContextValue db conv newRequirements) }
      rfl newRequirements
    simp only [h1]
    simp only [h2]
    simp [updatedContextValue]

/--
C8.  The conversation summary built during context retrieval: an empty
message list yields the empty summary; the summary never exceeds the
500-character cap; when the join of the first 100 characters of each of
the first 5 messages fits the cap, the summary equals that join; and
when the join overflows the cap, the summary is its first 497 characters
plus the ellipsis marker, meeting the cap exactly.
-/
theorem summarize_conversation_cap (messages : List (List Char)) :
    (messages = [] → summarizeConversation messages = []) ∧
    (summarizeConversation messages).length ≤ 500 ∧
    (messages ≠ [] → (joinedSummary messages).length ≤ 500 →
      summarizeConversation messages = joinedSummary messages) ∧
    ((joinedSummary messages).length > 500 →
      summarizeConversation messages = (joinedSummary messages).take 497 ++ summaryEllipsis ∧
      (summarizeConversation messages).length = 500) := by
  have hcap : ((joinedSummary messages).length > 500) →
      ((joinedSummary messages).take 497 ++ summaryEllipsis).length = 500 := by
    intro h500
    rw [List.length_append, List.length_take]
    have hmin : min 497 (joinedSummary messages).length = 497 := by omega
    rw [hmin]
    rfl
  unfold summarizeConversation
  by_cases hm : messages.isEmpty
  · rw [if_pos hm]
    have hnil : messages = [] := List.isEmpty_iff.mp hm
    refine ⟨fun _ => rfl, by simp, fun hne _ => absurd hnil hne, fun h500 => ?_⟩
    exfalso
    rw [hnil] at h500
    exact absurd h500 (by decide)
  · rw [if_neg hm]
    by_cases h5 : (joinedSummary messages).length > 500
    · rw [if_pos h5]
      exact ⟨fun he => absurd (List.isEmpty_iff.mpr he) hm,
        le_of_eq (hcap h5), fun _ hle => absurd h5 (by omega),
        fun _ => ⟨rfl, hcap h5⟩⟩
    · rw [if_neg h5]
      exact ⟨fun he => absurd (List.isEmpty_iff.mpr he) hm,
        by omega, fun _ _ => rfl, fun h500 => absurd h500 h5⟩

set_option maxRecDepth 20000 in
/-- Witness for C8: the empty case, an in-cap case and an overflow case,
all from summarize_conversation_cap at concrete inputs. -/
theorem summarize_conversation_cap_witness :
    summarizeConversation [] = [] ∧
    summarizeConversation [String.toList "hello"] = joinedSummary [String.toList "hello"] ∧
    (summarizeConversation longMessages =
      (joinedSummary longMessages).take 497 ++ summaryEllipsis ∧
     (summarizeConversation longMessages).length = 500) :=
  ⟨(summarize_conversation_cap []).1 rfl,
   (summarize_conversation_cap [String.toList "hello"]).2.2.1 (by decide) (by decide),
   (summarize_conversation_cap longMessages).2.2.2 (by decide)⟩

/--
C10.  update_context persists the merged context only into the
conversation record's context blob and never writes to the Requirement
Store, while retrieve_context rebuilds extracted_requirements solely
from the Requirement Store: after an update with new requirements, the
store is unchanged, a following retrieve returns exactly the store's
requirement set, any requirement absent from the store is absent from
the retrieved context, and yet a new requirement with a novel value was
present in the context the update returned.
-/
theorem update_context_requirements_not_persisted
    (db : DB) (newRequirements : List UserRequirement)
    (hconv : db.conversation.isSome) :
    (updateContext db newRequirements none none none).2.requirements = db.requirements ∧
    (retrieveContext (updateContext db newRequirements none none none).2).map
        (fun c => c.extractedRequirements) = some db.requirements ∧
    (∀ r : UserRequirement, r ∉ db.requirements →
      ∀ c, retrieveContext (updateContext db newRequirements none none none).2 = some c →
        r ∉ c.extractedRequirements) ∧
    (∀ r ∈ newRequirements,
      (db.requirements.map (fun p => p.requirementValue)).contains r.requirementValue = false →
        r ∈ (updateContext db newRequirements none none none).1.extractedRequirements) := by
  obtain ⟨conv, hconveq⟩ := Option.isSome_iff_exists.mp hconv
  rw [updateContext_requirementsOnly db conv hconveq newRequirements]
  have hret : retrieveContext
      { db with conversation := some ({ conv with
          currentContext := some (updatedContextValue db conv newRequirements) }) } =
      some { sessionId := db.sessionId
             currentRecommendationId :=
               (updatedContextValue db conv newRequirements).currentRecommendationId
             extractedRequirements := db.requirements
             conversationSummary := some (summarizeConversation (db.messages.take 50))
             lastIntents := none
             updatedAt := conv.lastAccessedAt } := rfl
  refine ⟨rfl, ?_, ?_, ?_⟩
  · rw [hret]
    rfl
  · intro r hr c hc
    rw [hret] at hc
    injection hc with hc
    rw [← hc]
    exact hr
  · intro r hrmem hrval
    have hne : newRequirements.isEmpty = false := by
      cases newRequirements with
      | nil => cases hrmem
      | cons a l => rfl
    show r ∈ (updatedContextValue db conv newRequirements).extractedRequirements
    unfold updatedContextValue
    simp only [hne, Bool.false_eq_true, if_false]
    unfold mergeRequirements
    refine List.mem_append.mpr (Or.inr (List.mem_filter.mpr ⟨hrmem, ?_⟩))
    rw [hrval]
    rfl

/-- Witness for C10 at a concrete store state and a single novel
requirement. -/
theorem update_context_requirements_not_persisted_witness :
    (updateContext exampleDB [exampleNewRequirement] none none none).2.requirements =
      exampleDB.requirements ∧
    (retrieveContext (updateContext exampleDB [exampleNewRequirement] none none none).2).map
        (fun c => c.extractedRequirements) = some exampleDB.requirements ∧
    exampleNewRequirement ∈
      (updateContext exampleDB [exampleNewRequirement] none none none).1.extractedRequirements := by
  have h := update_context_requirements_not_persisted exampleDB [exampleNewRequirement] rfl
  exact ⟨h.1, h.2.1,
    h.2.2.2 exampleNewRequirement (List.mem_cons_self _ _) (by rfl)⟩

end AwsAgent
